import Mathlib

/-!
Verification of the modu terminal UI (`src/main.go`).

The file shallowly embeds the program's state machine: the `model` struct, its
`Update` transition over the bubbletea message stream, the render function
`View`/`content`, the cursor and viewport reconciliation helpers `fixCursor`
and `fixViewport`, and the dependency-source adapter `load`'s filter-and-sort
stage.  External collaborators that are not part of the repository (the
bubbles viewport's scroll clamping, the spinner glyphs, terminal coloring, the
subprocess and JSON decoding) are modelled from the spec where the spec pins
their contract; each such definition says so in its doc comment.  Go slice
indexing out of range and nil-pointer dereference are modelled as `Option.none`
(a panic), so every transition has type `Option`.
-/

namespace Modu

/-- Go struct `module` of `src/main.go` (fields Path, Version, Update, Main,
Indirect).  The `Update` field is a pointer `*module`, recursive; a nil pointer
is `Option.none`. -/
inductive GoModule where
  | mk (path version : String) (update : Option GoModule) (main indirect : Bool)

def GoModule.Path : GoModule → String
  | .mk p _ _ _ _ => p

def GoModule.Version : GoModule → String
  | .mk _ v _ _ _ => v

def GoModule.Update : GoModule → Option GoModule
  | .mk _ _ u _ _ => u

def GoModule.Main : GoModule → Bool
  | .mk _ _ _ mn _ => mn

def GoModule.Indirect : GoModule → Bool
  | .mk _ _ _ _ i => i

/-- Message variants dispatched by `Update`: `errMsg`, `modulesMsg`,
`updatedMsg` (the three async task results), key presses, the spinner tick and
the terminal resize event.  The Go `error` payload is kept abstract as a
string. -/
inductive Msg where
  | errMsg (e : String)
  | modulesMsg (modules : List GoModule)
  | updatedMsg (modules : List GoModule)
  | keyMsg (key : String)
  | spinnerTick
  | windowSize (width height : Int)

/-- Follow-up commands a transition may emit: `tea.Quit`, the asynchronous
`updateCmd` for one module, and the spinner's next tick command. -/
inductive Cmd where
  | quit
  | updateCmd (m : GoModule)
  | spinnerCmd

/-- The `model` struct, restricted to the state the spec names in section 4.1:
ready flag, module list (a Go nil slice is `Option.none`), cursor, the
`updating` busy flag, the terminal error, the viewport's scroll state
(`YOffset`, `Height`, `Width`) and the spinner's animation frame.  The
`strings.Builder` scratch field carries no state between renders (every
`content` call ends in `builder.Reset()`), and the viewport's cached content
is display-surface internals; neither is part of the spec state. -/
structure Model where
  ready : Bool
  modules : Option (List GoModule)
  cursor : Int
  updating : Bool
  err : Option String
  yOffset : Int
  height : Int
  width : Int
  spinnerFrame : Nat

/-- Go `len(m.modules)`; `len` of a nil slice is 0. -/
def Model.modLen (m : Model) : Int := ((m.modules.getD []).length : Int)

/-- Modelled from the spec: the external viewport collaborator's
`LineUp n` (charmbracelet/bubbles), section 4.3 `scrollBy`: the offset never
scrolls past the content's start. -/
def Model.lineUp (m : Model) (n : Int) : Model :=
  { m with yOffset := max 0 (m.yOffset - n) }

/-- Modelled from the spec: the external viewport collaborator's
`LineDown n`, section 4.3 `scrollBy`: clamped so the window never leaves fewer
than `height` of the content's lines visible (one rendered line per module);
when the content is shorter than the height the offset stays 0. -/
def Model.lineDown (m : Model) (n : Int) : Model :=
  { m with yOffset := min (m.yOffset + n) (max 0 (m.modLen - m.height)) }

/-- Source `fixCursor`: overflow past the last index truncates to 0, underflow
below 0 truncates to the last index. -/
def Model.fixCursor (m : Model) : Model :=
  if m.cursor > m.modLen - 1 then { m with cursor := 0 }
  else if m.cursor < 0 then { m with cursor := m.modLen - 1 }
  else m

/-- Source `fixViewport`: with `moveCursor` the cursor is pulled to the nearer
edge of the visible window; without it the window is scrolled just far enough
to contain the cursor. -/
def Model.fixViewport (m : Model) (moveCursor : Bool) : Model :=
  let top := m.yOffset
  let bottom := m.height + m.yOffset - 1
  if moveCursor then
    if m.cursor < top then { m with cursor := top }
    else if m.cursor > bottom then { m with cursor := bottom }
    else m
  else
    if m.cursor < top then m.lineUp (top - m.cursor)
    else if m.cursor > bottom then m.lineDown (m.cursor - bottom)
    else m

/-- Go slice indexing `l[i]`: `Option.none` models the out-of-range panic. -/
def sliceIndex (l : List GoModule) (i : Int) : Option GoModule :=
  if h : 0 ≤ i ∧ i < (l.length : Int) then some (l.get ⟨i.toNat, by omega⟩)
  else Option.none

/-- Source `Update` (the single dispatch site).  A `none` result is a Go
panic; every non-panicking branch returns the next model and an optional
follow-up command.  In the `enter` branch the source assigns
`m.updating = true` and then evaluates `m.modules[m.cursor]` as the argument of
`updateCmd`; when the index is out of range the program panics, so the
post-assignment state is unobservable and the branch is `none`. -/
def Model.update (m : Model) (msg : Msg) : Option (Model × Option Cmd) :=
  match msg with
  | .errMsg e => some ({ m with err := some e }, some Cmd.quit)
  | .modulesMsg mods => some ({ m with modules := some mods }, Option.none)
  | .updatedMsg mods =>
    some ({ m with updating := false, modules := some mods }, Option.none)
  | .keyMsg key =>
    match key with
    | "ctrl+c" | "q" => some (m, some Cmd.quit)
    | "enter" =>
      if !m.updating then
        (sliceIndex (m.modules.getD []) m.cursor).map
          (fun md => ({ m with updating := true }, some (Cmd.updateCmd md)))
      else some (m, Option.none)
    | "down" | "j" =>
      if !m.updating then
        some ((({ m with cursor := m.cursor + 1 }).fixCursor).fixViewport false,
          Option.none)
      else some (m, Option.none)
    | "up" | "k" =>
      if !m.updating then
        some ((({ m with cursor := m.cursor - 1 }).fixCursor).fixViewport false,
          Option.none)
      else some (m, Option.none)
    | "pgup" | "u" =>
      if !m.updating then some ((m.lineUp 1).fixViewport true, Option.none)
      else some (m, Option.none)
    | "pgdown" | "d" =>
      if !m.updating then some ((m.lineDown 1).fixViewport true, Option.none)
      else some (m, Option.none)
    | _ => some (m, Option.none)
  | .spinnerTick =>
    some ({ m with spinnerFrame := m.spinnerFrame + 1 }, some Cmd.spinnerCmd)
  | .windowSize w h =>
    if !m.ready then
      some ({ m with width := w, height := h - 2, yOffset := 0, ready := true },
        Option.none)
    else
      some ((({ m with width := w, height := h - 2 }).fixViewport true),
        Option.none)

/-- Modelled from the spec: the Busy Indicator collaborator (section 2), a
purely cosmetic animation; the exact glyph per frame is immaterial to every
property stated here. -/
def spinnerFrames : List String := ["|", "/", "-", "\\"]

def spinnerView (frame : Nat) : String :=
  spinnerFrames.getD (frame % spinnerFrames.length) ""

/-- Cursor marker of one rendered row in `content`: `>` on the cursor row
(the terminal red coloring is a display-surface detail excluded by the spec's
section 1 and dropped), the spinner glyph instead while updating, a space
elsewhere. -/
def cursorMark (m : Model) (i : Nat) : String :=
  if m.cursor = (i : Int) then
    (if m.updating then spinnerView m.spinnerFrame else ">")
  else " "

/-- Source `content`: one line per module,
`"%s %s [%s -> %s] %s\n"` with the cursor marker, path, current version, the
update's version (a nil `Update` pointer dereference panics, hence `Option`)
and the `// indirect` suffix.  The `strings.Builder` accumulation with its
deferred reset is the concatenation of the lines in order. -/
def Model.content (m : Model) : Option String :=
  (((m.modules.getD []).enum.mapM fun (p : Nat × GoModule) =>
      (p.2.Update).map fun u =>
        cursorMark m p.1 ++ " " ++ p.2.Path ++ " [" ++ p.2.Version ++ " -> "
          ++ u.Version ++ "] " ++ (if p.2.Indirect then "// indirect" else "")
          ++ "\n")).map
    (fun lines => String.join lines)

/-- Modelled from the spec: the display surface's `viewport.View`, the window
of `height` rendered lines starting at `topOffset` (section 3, Viewport
State). -/
def viewportView (m : Model) (body : String) : String :=
  String.intercalate "\n" (((body.splitOn "\n").drop m.yOffset.toNat).take
    m.height.toNat)

def footerStr : String := "(press 'q' to quit)"

/-- Final `fmt.Sprintf("%s\n%s\n%s", header, body, footer)` of `View`. -/
def renderFrame (header body : String) : String :=
  header ++ "\n" ++ body ++ "\n" ++ footerStr

/-- Source `View`: loading header while not ready or the module list is still
nil, the all-up-to-date header for a loaded empty list, otherwise the position
header plus the viewport-windowed body.  The returned model is the receiver
after the call: no spec-state field is assigned anywhere in `View` or
`content` (only the display surface's content cache and the builder scratch
are touched), which the pair makes explicit. -/
def Model.view (m : Model) : Option (String × Model) :=
  if !m.ready || m.modules.isNone then
    some (renderFrame (spinnerView m.spinnerFrame ++ " Loading...") "", m)
  else if m.modLen = 0 then
    some (renderFrame "All modules are up-to-date" "", m)
  else
    (m.content).map fun body =>
      (renderFrame ("Press enter to update [" ++ toString (m.cursor + 1) ++ "/"
          ++ toString m.modLen ++ "]") (viewportView m body), m)

/-- Source comparator passed to `sort.Slice` in `load`: indirect modules sort
after direct ones, ties broken by lexicographic path order. -/
def goLess (a b : GoModule) : Bool :=
  if a.Indirect && !b.Indirect then false
  else if !a.Indirect && b.Indirect then true
  else decide (a.Path < b.Path)

/-- Non-strict order induced by the comparator: `a` may precede `b` exactly
when the comparator does not demand `b` strictly before `a`.  A sequence is a
valid `sort.Slice` output for `goLess` precisely when it is pairwise `goLE`. -/
def goLE (a b : GoModule) : Prop := goLess b a = false

instance : DecidableRel goLE := fun a b =>
  inferInstanceAs (Decidable (goLess b a = false))

/-- Grouping rank of the comparator: direct modules (rank 0) precede indirect
ones (rank 1). -/
def rank (m : GoModule) : Nat := if m.Indirect then 1 else 0

/-- Source `load`, from the decode loop onward: the subprocess invocation and
JSON decoding are the external Dependency Source (spec section 1); a
successful decode yields the list of records, which `load` filters to
non-main modules carrying an update and sorts with `sort.Slice goLess`,
embedded as a sort by the induced non-strict order `goLE`. -/
def load (decoded : List GoModule) : List GoModule :=
  List.insertionSort goLE (decoded.filter fun m => !m.Main && m.Update.isSome)

/-- Post-loop error handling of `main`: with a terminal error set,
`log.Fatalln` prints it and exits with status 1; otherwise the process exits
normally with status 0. -/
def exitCode (m : Model) : Nat := if m.err.isSome then 1 else 0

/-- Source `newModel`: the zero-valued model (nil module slice, cursor 0, not
updating, no error, zero viewport until the first resize); the spinner's
foreground color is a display-surface detail and is dropped. -/
def newModel : Model where
  ready := false
  modules := Option.none
  cursor := 0
  updating := false
  err := Option.none
  yOffset := 0
  height := 0
  width := 0
  spinnerFrame := 0

/-- Event-loop fold: process a trace of messages in arrival order through
`Update`, propagating a panic (`none`) and dropping the emitted commands. -/
def runMsgs : Model → List Msg → Option Model
  | m, [] => some m
  | m, msg :: rest =>
    match m.update msg with
    | some (m', _) => runMsgs m' rest
    | Option.none => Option.none

/-- The two asynchronous result events that replace the module list. -/
def Msg.isResult : Msg → Bool
  | .modulesMsg _ => true
  | .updatedMsg _ => true
  | _ => false

/-- Cursor invariant of spec section 3: whenever the list is non-empty the
cursor lies in `[0, len-1]`. -/
def cursorOK (m : Model) : Prop :=
  1 ≤ m.modLen → 0 ≤ m.cursor ∧ m.cursor < m.modLen

/-- Well-formed interactive state over a non-empty list: positive viewport
height, non-negative scroll offset, in-range cursor, and the cursor's line
visible in the window. -/
def Inv (m : Model) : Prop :=
  1 ≤ m.height ∧ 0 ≤ m.yOffset ∧ 1 ≤ m.modLen ∧ 0 ≤ m.cursor ∧
    m.cursor < m.modLen ∧ m.yOffset ≤ m.cursor ∧
    m.cursor ≤ m.yOffset + m.height - 1

instance (m : Model) : Decidable (cursorOK m) := by
  unfold cursorOK; infer_instance

instance (m : Model) : Decidable (Inv m) := by
  unfold Inv; infer_instance

/-- Sample direct module with a pending update, for concrete runs. -/
def modA : GoModule :=
  .mk "example.com/a" "v1.0.0"
    (some (.mk "example.com/a" "v1.1.0" Option.none false false)) false false

/-- Second sample direct module with a pending update. -/
def modB : GoModule :=
  .mk "example.com/b" "v2.0.0"
    (some (.mk "example.com/b" "v2.2.0" Option.none false false)) false false

/-- Third sample module, indirect, with a pending update. -/
def modC : GoModule :=
  .mk "example.com/c" "v3.0.0"
    (some (.mk "example.com/c" "v3.1.0" Option.none false false)) false true

theorem lineUp_modules (m : Model) (n : Int) :
    (m.lineUp n).modules = m.modules := rfl

theorem lineUp_cursor (m : Model) (n : Int) :
    (m.lineUp n).cursor = m.cursor := rfl

theorem lineUp_height (m : Model) (n : Int) :
    (m.lineUp n).height = m.height := rfl

theorem lineUp_modLen (m : Model) (n : Int) :
    (m.lineUp n).modLen = m.modLen := rfl

theorem lineUp_yOffset (m : Model) (n : Int) :
    (m.lineUp n).yOffset = max 0 (m.yOffset - n) := rfl

theorem lineDown_modules (m : Model) (n : Int) :
    (m.lineDown n).modules = m.modules := rfl

theorem lineDown_cursor (m : Model) (n : Int) :
    (m.lineDown n).cursor = m.cursor := rfl

theorem lineDown_height (m : Model) (n : Int) :
    (m.lineDown n).height = m.height := rfl

theorem lineDown_modLen (m : Model) (n : Int) :
    (m.lineDown n).modLen = m.modLen := rfl

theorem lineDown_yOffset (m : Model) (n : Int) :
    (m.lineDown n).yOffset
      = min (m.yOffset + n) (max 0 (m.modLen - m.height)) := rfl

theorem fixCursor_modules (m : Model) : (m.fixCursor).modules = m.modules := by
  unfold Model.fixCursor; split_ifs <;> rfl

theorem fixCursor_modLen (m : Model) : (m.fixCursor).modLen = m.modLen := by
  unfold Model.fixCursor; split_ifs <;> rfl

theorem fixCursor_yOffset (m : Model) : (m.fixCursor).yOffset = m.yOffset := by
  unfold Model.fixCursor; split_ifs <;> rfl

theorem fixCursor_height (m : Model) : (m.fixCursor).height = m.height := by
  unfold Model.fixCursor; split_ifs <;> rfl

theorem fixCursor_updating (m : Model) :
    (m.fixCursor).updating = m.updating := by
  unfold Model.fixCursor; split_ifs <;> rfl

theorem fixCursor_cursor (m : Model) :
    (m.fixCursor).cursor
      = if m.cursor > m.modLen - 1 then 0
        else if m.cursor < 0 then m.modLen - 1 else m.cursor := by
  unfold Model.fixCursor; split_ifs <;> rfl

theorem fixViewport_modules (m : Model) (b : Bool) :
    (m.fixViewport b).modules = m.modules := by
  unfold Model.fixViewport; dsimp only
  split_ifs <;> simp_all [Model.lineUp, Model.lineDown, Model.modLen]

theorem fixViewport_modLen (m : Model) (b : Bool) :
    (m.fixViewport b).modLen = m.modLen := by
  unfold Model.fixViewport; dsimp only
  split_ifs <;> simp_all [Model.lineUp, Model.lineDown, Model.modLen]

theorem fixViewport_height (m : Model) (b : Bool) :
    (m.fixViewport b).height = m.height := by
  unfold Model.fixViewport; dsimp only
  split_ifs <;> simp_all [Model.lineUp, Model.lineDown, Model.modLen]

theorem fixViewport_updating (m : Model) (b : Bool) :
    (m.fixViewport b).updating = m.updating := by
  unfold Model.fixViewport; dsimp only
  split_ifs <;> simp_all [Model.lineUp, Model.lineDown, Model.modLen]

theorem fixViewport_false_cursor (m : Model) :
    (m.fixViewport false).cursor = m.cursor := by
  unfold Model.fixViewport; dsimp only
  split_ifs <;> simp_all [Model.lineUp, Model.lineDown, Model.modLen]

theorem fixViewport_true_yOffset (m : Model) :
    (m.fixViewport true).yOffset = m.yOffset := by
  unfold Model.fixViewport; dsimp only
  split_ifs <;> simp_all [Model.lineUp, Model.lineDown, Model.modLen]

theorem update_down_eq (m : Model) :
    m.update (Msg.keyMsg "down")
      = if !m.updating then
          some ((({ m with cursor := m.cursor + 1 }).fixCursor).fixViewport
            false, Option.none)
        else some (m, Option.none) := rfl

theorem update_j_eq (m : Model) :
    m.update (Msg.keyMsg "j")
      = if !m.updating then
          some ((({ m with cursor := m.cursor + 1 }).fixCursor).fixViewport
            false, Option.none)
        else some (m, Option.none) := rfl

theorem update_up_eq (m : Model) :
    m.update (Msg.keyMsg "up")
      = if !m.updating then
          some ((({ m with cursor := m.cursor - 1 }).fixCursor).fixViewport
            false, Option.none)
        else some (m, Option.none) := rfl

theorem update_k_eq (m : Model) :
    m.update (Msg.keyMsg "k")
      = if !m.updating then
          some ((({ m with cursor := m.cursor - 1 }).fixCursor).fixViewport
            false, Option.none)
        else some (m, Option.none) := rfl

theorem update_pgup_eq (m : Model) :
    m.update (Msg.keyMsg "pgup")
      = if !m.updating then some ((m.lineUp 1).fixViewport true, Option.none)
        else some (m, Option.none) := rfl

theorem update_pgdown_eq (m : Model) :
    m.update (Msg.keyMsg "pgdown")
      = if !m.updating then some ((m.lineDown 1).fixViewport true, Option.none)
        else some (m, Option.none) := rfl

/-- C1: the source's `enter` branch checks only the busy flag, not list
non-emptiness; at the startup state (module list still nil, not busy,
cursor 0) pressing enter evaluates `m.modules[0]` on a length-0 slice and the
program panics, where the claim requires a no-op that never indexes out of
bounds. -/
theorem enter_on_unloaded_list_panics :
    newModel.update (Msg.keyMsg "enter") = Option.none := rfl

/-- Loaded two-module state with the cursor on the second entry. -/
def mC2 : Model :=
  { newModel with
      ready := true
      height := 5
      modules := some [modA, modB]
      cursor := 1 }

/-- The state after C2's shortening reload. -/
def mC2after : Model := { mC2 with updating := false, modules := some [modA] }

/-- C2: the result transitions replace the module list without re-clamping the
cursor; from a state satisfying the cursor invariant, an `UpdateResult(Ok)`
carrying a shorter list yields a state violating it (cursor 1 on a length-1
list), where the claim requires the invariant to be preserved by every
transition. -/
theorem updated_shorter_list_breaks_cursor_invariant :
    mC2.update (Msg.updatedMsg [modA]) = some (mC2after, Option.none) ∧
      cursorOK mC2 ∧ ¬ cursorOK mC2after :=
  ⟨rfl, by decide, by decide⟩

/-- Out-of-range cursor witnessing that `fixCursor` is not modular. -/
def mC3 : Model := { newModel with modules := some [modA, modB], cursor := 3 }

/-- C3 counterexample: on a list of length 2 with cursor value 3, `fixCursor`
truncates to 0 while true modular reduction gives 3 mod 2 = 1, so the clamping
operation does not return `c mod n` for every integer `c`. -/
theorem fixCursor_not_modular_cex :
    (mC3.fixCursor).cursor = 0 ∧ mC3.cursor % mC3.modLen = 1 ∧
      (mC3.fixCursor).cursor ≠ mC3.cursor % mC3.modLen := by
  refine ⟨rfl, rfl, by decide⟩

/-- C3 amended: on a non-empty list of length `n`, `fixCursor` agrees with
true modular wraparound `c mod n` for every cursor value in `[-1, n]` — the
values reachable from an in-range cursor by one ±1 navigation step; outside
that range it truncates (overflow to 0, underflow to `n - 1`) instead. -/
theorem fixCursor_modular_on_step_range (m : Model) (h1 : 1 ≤ m.modLen)
    (h2 : -1 ≤ m.cursor) (h3 : m.cursor ≤ m.modLen) :
    (m.fixCursor).cursor = m.cursor % m.modLen := by
  rw [fixCursor_cursor]
  split_ifs with ha hb
  · have hc : m.cursor = m.modLen := by omega
    rw [hc, Int.emod_self]
  · have hc : m.cursor = -1 := by omega
    have hm : (-1 : Int) % m.modLen = m.modLen - 1 := by
      rw [show (-1 : Int) = (m.modLen - 1) + m.modLen * (-1) by ring,
        Int.add_mul_emod_self_left]
      exact Int.emod_eq_of_lt (by omega) (by omega)
    rw [hc, hm]
  · exact (Int.emod_eq_of_lt (by omega) (by omega)).symm

/-- Underflowed cursor state for the C3 witness. -/
def mW3 : Model := { newModel with modules := some [modA, modB], cursor := -1 }

/-- C3 witness: at a concrete two-module state with cursor −1, the amended
statement applies and `fixCursor` returns (−1) mod 2 = 1. -/
theorem fixCursor_modular_on_step_range_witness :
    1 ≤ mW3.modLen ∧ -1 ≤ mW3.cursor ∧ mW3.cursor ≤ mW3.modLen ∧
      (mW3.fixCursor).cursor = mW3.cursor % mW3.modLen :=
  ⟨by decide, by decide, by decide,
    fixCursor_modular_on_step_range mW3 (by decide) (by decide) (by decide)⟩

/-- C9: a failing asynchronous task result (load or update both deliver
`errMsg`) sets the terminal error, changes nothing else, emits `tea.Quit` to
terminate the event loop — no retry command — and the post-loop check of
`main` then exits the process with status 1 after printing the error. -/
theorem err_result_sets_error_quits_exits_nonzero (m : Model) (e : String) :
    m.update (Msg.errMsg e) = some ({ m with err := some e }, some Cmd.quit) ∧
      exitCode { m with err := some e } = 1 := ⟨rfl, rfl⟩

theorem modLen_with_cursor (m : Model) (c : Int) :
    ({ m with cursor := c } : Model).modLen = m.modLen := rfl

theorem goLE_iff (a b : GoModule) :
    goLE a b ↔ (rank a < rank b ∨ (rank a = rank b ∧ a.Path ≤ b.Path)) := by
  unfold goLE goLess rank
  rcases ha : a.Indirect <;> rcases hb : b.Indirect <;>
    simp [ha, hb, decide_eq_false_iff_not, not_lt]

instance : IsTotal GoModule goLE := ⟨by
  intro a b
  rw [goLE_iff, goLE_iff]
  rcases Nat.lt_trichotomy (rank a) (rank b) with h | h | h
  · exact Or.inl (Or.inl h)
  · rcases le_total a.Path b.Path with hp | hp
    · exact Or.inl (Or.inr ⟨h, hp⟩)
    · exact Or.inr (Or.inr ⟨h.symm, hp⟩)
  · exact Or.inr (Or.inl h)⟩

instance : IsTrans GoModule goLE := ⟨by
  intro a b c hab hbc
  rw [goLE_iff] at hab hbc ⊢
  rcases hab with h1 | ⟨h1, p1⟩ <;> rcases hbc with h2 | ⟨h2, p2⟩
  · exact Or.inl (h1.trans h2)
  · exact Or.inl (h2 ▸ h1)
  · exact Or.inl (h1 ▸ h2)
  · exact Or.inr ⟨h1.trans h2, p1.trans p2⟩⟩

/-- C4: the filtered and sorted list produced by `load` places every direct
module before every indirect one, and within equal indirectness flags the
paths are non-decreasing lexicographically. -/
theorem load_groups_direct_before_indirect_sorted (ms : List GoModule) :
    (load ms).Pairwise (fun a b =>
      (a.Indirect = false ∧ b.Indirect = true) ∨
        (a.Indirect = b.Indirect ∧ a.Path ≤ b.Path)) := by
  have h : List.Pairwise goLE (load ms) :=
    List.sorted_insertionSort goLE
      (ms.filter fun m => !m.Main && m.Update.isSome)
  refine h.imp fun {a b} hab => ?_
  rw [goLE_iff] at hab
  rcases ha : a.Indirect <;> rcases hb : b.Indirect <;> simp_all [rank]

/-- C7: from a non-busy state over a non-empty list, a down key at the last
index wraps the cursor to 0 (hence a single-element list keeps it at 0), and
an up key at index 0 wraps it to the last index. -/
theorem cursor_wraps_at_ends (m : Model) (hb : m.updating = false)
    (hn : 1 ≤ m.modLen) :
    (m.cursor = m.modLen - 1 →
      ∃ p, m.update (Msg.keyMsg "down") = some p ∧ p.1.cursor = 0) ∧
    (m.cursor = 0 →
      ∃ p, m.update (Msg.keyMsg "up") = some p ∧ p.1.cursor = m.modLen - 1) := by
  constructor
  · intro hc
    refine ⟨((({ m with cursor := m.cursor + 1 }).fixCursor).fixViewport false,
      Option.none), ?_, ?_⟩
    · rw [update_down_eq, hb]; rfl
    · rw [fixViewport_false_cursor, fixCursor_cursor, modLen_with_cursor]
      dsimp only
      rw [if_pos (show m.cursor + 1 > m.modLen - 1 by omega)]
  · intro hc
    refine ⟨((({ m with cursor := m.cursor - 1 }).fixCursor).fixViewport false,
      Option.none), ?_, ?_⟩
    · rw [update_up_eq, hb]; rfl
    · rw [fixViewport_false_cursor, fixCursor_cursor, modLen_with_cursor]
      dsimp only
      rw [if_neg (show ¬ m.cursor - 1 > m.modLen - 1 by omega),
        if_pos (show m.cursor - 1 < 0 by omega)]

/-- Single-module loaded state for the C7 witness (spec Scenario A). -/
def mC7 : Model :=
  { newModel with
      ready := true
      height := 3
      modules := some [modA]
      cursor := 0 }

/-- C7 witness: on the one-element list, a down press leaves the cursor at 0
and an up press wraps it to the last index 0. -/
theorem cursor_wraps_at_ends_witness :
    (∃ p, mC7.update (Msg.keyMsg "down") = some p ∧ p.1.cursor = 0) ∧
      (∃ p, mC7.update (Msg.keyMsg "up") = some p ∧
        p.1.cursor = mC7.modLen - 1) :=
  ⟨(cursor_wraps_at_ends mC7 rfl (by decide)).1 (by decide),
    (cursor_wraps_at_ends mC7 rfl (by decide)).2 rfl⟩

theorem fixViewport_true_cursor (m : Model) (hh : 1 ≤ m.height) :
    (m.fixViewport true).cursor
      = max m.yOffset (min m.cursor (m.yOffset + m.height - 1)) := by
  unfold Model.fixViewport; dsimp only
  split_ifs <;> simp_all <;> omega

/-- C6: from any non-busy state (with a positive viewport height), pgdown and
pgup apply exactly the one-line clamped scroll to the offset — the
reconciliation never scrolls further — and then clamp the cursor to the
nearer edge of the new window, leaving the module list and height
untouched. -/
theorem pg_scroll_moves_window_then_clamps_cursor (m : Model)
    (hb : m.updating = false) (hh : 1 ≤ m.height) :
    (∃ p, m.update (Msg.keyMsg "pgdown") = some p ∧ p.2 = Option.none ∧
      p.1.yOffset = min (m.yOffset + 1) (max 0 (m.modLen - m.height)) ∧
      p.1.cursor
        = max p.1.yOffset (min m.cursor (p.1.yOffset + m.height - 1)) ∧
      p.1.modules = m.modules ∧ p.1.height = m.height) ∧
    (∃ p, m.update (Msg.keyMsg "pgup") = some p ∧ p.2 = Option.none ∧
      p.1.yOffset = max 0 (m.yOffset - 1) ∧
      p.1.cursor
        = max p.1.yOffset (min m.cursor (p.1.yOffset + m.height - 1)) ∧
      p.1.modules = m.modules ∧ p.1.height = m.height) := by
  constructor
  · refine ⟨((m.lineDown 1).fixViewport true, Option.none), ?_, rfl, ?_, ?_,
      ?_, ?_⟩
    · rw [update_pgdown_eq, hb]; rfl
    · rw [fixViewport_true_yOffset, lineDown_yOffset]
    · rw [fixViewport_true_cursor _ (by rw [lineDown_height]; exact hh),
        fixViewport_true_yOffset, lineDown_cursor, lineDown_height]
    · rw [fixViewport_modules, lineDown_modules]
    · rw [fixViewport_height, lineDown_height]
  · refine ⟨((m.lineUp 1).fixViewport true, Option.none), ?_, rfl, ?_, ?_,
      ?_, ?_⟩
    · rw [update_pgup_eq, hb]; rfl
    · rw [fixViewport_true_yOffset, lineUp_yOffset]
    · rw [fixViewport_true_cursor _ (by rw [lineUp_height]; exact hh),
        fixViewport_true_yOffset, lineUp_cursor, lineUp_height]
    · rw [fixViewport_modules, lineUp_modules]
    · rw [fixViewport_height, lineUp_height]

/-- Three-module loaded state with a height-2 viewport for the C6 witness. -/
def mC6 : Model :=
  { newModel with
      ready := true
      height := 2
      modules := some [modA, modB, modC]
      cursor := 0 }

/-- C6 witness: the pgdown/pgup characterization instantiated at the concrete
three-module, height-2 state. -/
theorem pg_scroll_moves_window_then_clamps_cursor_witness :
    (∃ p, mC6.update (Msg.keyMsg "pgdown") = some p ∧ p.2 = Option.none ∧
      p.1.yOffset = min (mC6.yOffset + 1) (max 0 (mC6.modLen - mC6.height)) ∧
      p.1.cursor
        = max p.1.yOffset (min mC6.cursor (p.1.yOffset + mC6.height - 1)) ∧
      p.1.modules = mC6.modules ∧ p.1.height = mC6.height) ∧
    (∃ p, mC6.update (Msg.keyMsg "pgup") = some p ∧ p.2 = Option.none ∧
      p.1.yOffset = max 0 (mC6.yOffset - 1) ∧
      p.1.cursor
        = max p.1.yOffset (min mC6.cursor (p.1.yOffset + mC6.height - 1)) ∧
      p.1.modules = mC6.modules ∧ p.1.height = mC6.height) :=
  pg_scroll_moves_window_then_clamps_cursor mC6 rfl (by decide)

/-- C8: rendering is pure at the spec's state granularity — a successful
`View` returns the receiver unchanged (no spec-state field is assigned), and
calling `View` again on the returned state reproduces the identical output
pair. -/
theorem view_pure_idempotent (m : Model) (p : String × Model)
    (h : m.view = some p) : p.2 = m ∧ p.2.view = some p := by
  by_cases h1 : (!m.ready || m.modules.isNone) = true
  · rw [Model.view, if_pos h1] at h
    obtain rfl := Option.some.inj h
    exact ⟨rfl, by rw [Model.view, if_pos h1]⟩
  · by_cases h2 : m.modLen = 0
    · rw [Model.view, if_neg h1, if_pos h2] at h
      obtain rfl := Option.some.inj h
      exact ⟨rfl, by rw [Model.view, if_neg h1, if_pos h2]⟩
    · rw [Model.view, if_neg h1, if_neg h2] at h
      obtain ⟨body, hbody, hp⟩ := Option.map_eq_some'.mp h
      obtain rfl := hp
      refine ⟨rfl, ?_⟩
      rw [Model.view, if_neg h1, if_neg h2, hbody]
      rfl

theorem nav_down_inv (m : Model) (h : Inv m) :
    Inv ((({ m with cursor := m.cursor + 1 }).fixCursor).fixViewport false) := by
  obtain ⟨h1, h2, h3, h4, h5, h6, h7⟩ := h
  unfold Model.fixViewport Model.fixCursor
  dsimp only
  split_ifs <;>
    simp_all [Inv, Model.lineUp, Model.lineDown, Model.modLen] <;> omega

theorem nav_up_inv (m : Model) (h : Inv m) :
    Inv ((({ m with cursor := m.cursor - 1 }).fixCursor).fixViewport false) := by
  obtain ⟨h1, h2, h3, h4, h5, h6, h7⟩ := h
  unfold Model.fixViewport Model.fixCursor
  dsimp only
  split_ifs <;>
    simp_all [Inv, Model.lineUp, Model.lineDown, Model.modLen] <;> omega

theorem nav_step_inv (m : Model) (k : String)
    (hk : k = "down" ∨ k = "j" ∨ k = "up" ∨ k = "k") (h : Inv m) :
    ∃ p, m.update (Msg.keyMsg k) = some p ∧ Inv p.1 := by
  rcases hk with rfl | rfl | rfl | rfl
  · by_cases hu : m.updating = true
    · refine ⟨(m, Option.none), ?_, h⟩
      rw [update_down_eq, if_neg (by simp [hu])]
    · refine ⟨((({ m with cursor := m.cursor + 1 }).fixCursor).fixViewport
        false, Option.none), ?_, nav_down_inv m h⟩
      rw [update_down_eq, if_pos (by simp_all)]
  · by_cases hu : m.updating = true
    · refine ⟨(m, Option.none), ?_, h⟩
      rw [update_j_eq, if_neg (by simp [hu])]
    · refine ⟨((({ m with cursor := m.cursor + 1 }).fixCursor).fixViewport
        false, Option.none), ?_, nav_down_inv m h⟩
      rw [update_j_eq, if_pos (by simp_all)]
  · by_cases hu : m.updating = true
    · refine ⟨(m, Option.none), ?_, h⟩
      rw [update_up_eq, if_neg (by simp [hu])]
    · refine ⟨((({ m with cursor := m.cursor - 1 }).fixCursor).fixViewport
        false, Option.none), ?_, nav_up_inv m h⟩
      rw [update_up_eq, if_pos (by simp_all)]
  · by_cases hu : m.updating = true
    · refine ⟨(m, Option.none), ?_, h⟩
      rw [update_k_eq, if_neg (by simp [hu])]
    · refine ⟨((({ m with cursor := m.cursor - 1 }).fixCursor).fixViewport
        false, Option.none), ?_, nav_up_inv m h⟩
      rw [update_k_eq, if_pos (by simp_all)]

/-- C5: starting from any well-formed state, after an arbitrary sequence of
cursor-navigation key events (down/j/up/k, each with its `fixCursor` and
`fixViewport` reconciliation) no transition panics and the cursor line is
visible in the viewport: `topOffset ≤ cursor ≤ topOffset + height - 1`. -/
theorem nav_sequence_keeps_cursor_visible (m : Model) (ks : List String)
    (hks : ∀ k ∈ ks, k = "down" ∨ k = "j" ∨ k = "up" ∨ k = "k")
    (h : Inv m) :
    ∃ m', runMsgs m (ks.map Msg.keyMsg) = some m' ∧
      m'.yOffset ≤ m'.cursor ∧ m'.cursor ≤ m'.yOffset + m'.height - 1 := by
  induction ks generalizing m with
  | nil => exact ⟨m, rfl, h.2.2.2.2.2.1, h.2.2.2.2.2.2⟩
  | cons k rest ih =>
    obtain ⟨p, hp, hinv⟩ := nav_step_inv m k (hks k (by simp)) h
    obtain ⟨m1, c⟩ := p
    obtain ⟨m', hm', hvis⟩ := ih m1 (fun k' hk' => hks k' (by simp [hk'])) hinv
    refine ⟨m', ?_, hvis⟩
    show runMsgs m (Msg.keyMsg k :: rest.map Msg.keyMsg) = some m'
    rw [runMsgs, hp]
    exact hm'

/-- Three-module, height-2 well-formed state for the C5 witness. -/
def mC5 : Model :=
  { newModel with
      ready := true
      height := 2
      modules := some [modA, modB, modC]
      cursor := 0 }

/-- C5 witness: a concrete navigation-only sequence from the concrete state
ends with the cursor visible in the viewport. -/
theorem nav_sequence_keeps_cursor_visible_witness :
    ∃ m', runMsgs mC5 ((["down", "down", "down", "up"]).map Msg.keyMsg)
        = some m' ∧
      m'.yOffset ≤ m'.cursor ∧ m'.cursor ≤ m'.yOffset + m'.height - 1 :=
  nav_sequence_keeps_cursor_visible mC5 ["down", "down", "down", "up"]
    (by decide) (by decide)

theorem update_modules_effect (m : Model) (msg : Msg) (p : Model × Option Cmd)
    (h : m.update msg = some p) :
    (msg.isResult = false → p.1.modules = m.modules) ∧
      (msg.isResult = true → ∃ l, p.1.modules = some l) := by
  cases msg with
  | errMsg e =>
    simp only [Model.update] at h
    obtain rfl := Option.some.inj h
    exact ⟨fun _ => rfl, fun hc => by simp [Msg.isResult] at hc⟩
  | modulesMsg l =>
    simp only [Model.update] at h
    obtain rfl := Option.some.inj h
    exact ⟨fun hc => by simp [Msg.isResult] at hc, fun _ => ⟨l, rfl⟩⟩
  | updatedMsg l =>
    simp only [Model.update] at h
    obtain rfl := Option.some.inj h
    exact ⟨fun hc => by simp [Msg.isResult] at hc, fun _ => ⟨l, rfl⟩⟩
  | spinnerTick =>
    simp only [Model.update] at h
    obtain rfl := Option.some.inj h
    exact ⟨fun _ => rfl, fun hc => by simp [Msg.isResult] at hc⟩
  | windowSize w ht =>
    refine ⟨fun _ => ?_, fun hc => by simp [Msg.isResult] at hc⟩
    simp only [Model.update] at h
    split at h <;> (obtain rfl := Option.some.inj h)
    · rfl
    · simp [fixViewport_modules]
  | keyMsg key =>
    refine ⟨fun _ => ?_, fun hc => by simp [Msg.isResult] at hc⟩
    simp only [Model.update] at h
    split at h <;>
      first
        | (obtain rfl := Option.some.inj h; rfl)
        | (split at h <;>
            first
              | (obtain ⟨md, hmd, hp⟩ := Option.map_eq_some'.mp h
                 obtain rfl := hp
                 rfl)
              | (obtain rfl := Option.some.inj h
                 simp [fixViewport_modules, fixCursor_modules,
                   lineUp_modules, lineDown_modules]))

theorem runMsgs_modules (msgs : List Msg) :
    ∀ m m', runMsgs m msgs = some m' →
      (m'.modules = Option.none ↔
        (m.modules = Option.none ∧ ∀ msg ∈ msgs, msg.isResult = false)) := by
  induction msgs with
  | nil =>
    intro m m' h
    obtain rfl := Option.some.inj h
    simp
  | cons msg rest ih =>
    intro m m' h
    rw [runMsgs] at h
    cases hu : m.update msg with
    | none => rw [hu] at h; simp at h
    | some p =>
      rw [hu] at h
      obtain ⟨m1, c⟩ := p
      have heff := update_modules_effect m msg (m1, c) hu
      have hiff := ih m1 m' h
      rw [hiff]
      cases hr : msg.isResult with
      | true =>
        obtain ⟨l, hl⟩ := heff.2 hr
        dsimp only at hl
        simp [hl, hr]
      | false =>
        have hm := heff.1 hr
        dsimp only at hm
        simp [hm, hr]

/-- C10: processing any panic-free event trace from the startup state leaves
the module list nil exactly as long as no load or update result event has
arrived (a successful load always carries an actual — possibly empty — list),
and the renderer distinguishes the two situations: a ready state with a nil
list shows the loading header, while a ready state with a loaded empty list
shows the all-up-to-date header. -/
theorem modules_nil_until_first_result_and_view_headers :
    (∀ msgs m', runMsgs newModel msgs = some m' →
      (m'.modules = Option.none ↔ ∀ msg ∈ msgs, msg.isResult = false)) ∧
    (∀ m : Model, m.ready = true → m.modules = Option.none →
      m.view = some (renderFrame (spinnerView m.spinnerFrame ++ " Loading...")
        "", m)) ∧
    (∀ m : Model, m.ready = true → m.modules = some [] →
      m.view = some (renderFrame "All modules are up-to-date" "", m)) := by
  refine ⟨?_, ?_, ?_⟩
  · intro msgs m' h
    rw [runMsgs_modules msgs newModel m' h]
    simp [newModel]
  · intro m hr hm
    rw [Model.view, if_pos (by simp [hm])]
  · intro m hr hm
    rw [Model.view, if_neg (by simp [hr, hm]),
      if_pos (by simp [Model.modLen, hm])]

/-- Trace delivering the first load result, for the C10 witness. -/
def msgs10 : List Msg := [Msg.spinnerTick, Msg.modulesMsg [modA]]

/-- Model reached from startup by `msgs10`. -/
def m10 : Model :=
  { newModel with
      spinnerFrame := 1
      modules := some [modA] }

/-- Ready model with a loaded empty list, for the C10 witness. -/
def m10e : Model := { newModel with ready := true, modules := some [] }

/-- C10 witness: after the concrete trace containing a load result the list is
no longer nil, and the loaded-but-empty state renders the all-up-to-date
header. -/
theorem modules_nil_until_first_result_and_view_headers_witness :
    (m10.modules = Option.none ↔ ∀ msg ∈ msgs10, msg.isResult = false) ∧
      m10e.view = some (renderFrame "All modules are up-to-date" "", m10e) :=
  ⟨modules_nil_until_first_result_and_view_headers.1 msgs10 m10 rfl,
    modules_nil_until_first_result_and_view_headers.2.2 m10e rfl rfl⟩

/-- C8 witness: at the startup state the render output is the loading frame,
the state is returned unchanged, and a second render reproduces the pair. -/
theorem view_pure_idempotent_witness :
    ((renderFrame (spinnerView 0 ++ " Loading...") "", newModel)
        : String × Model).2 = newModel ∧
      ((renderFrame (spinnerView 0 ++ " Loading...") "", newModel)
        : String × Model).2.view
        = some (renderFrame (spinnerView 0 ++ " Loading...") "", newModel) :=
  view_pure_idempotent newModel
    (renderFrame (spinnerView 0 ++ " Loading...") "", newModel) rfl

end Modu
